import Mathlib

/-
Verification development for the analysis-graph node core
(paddle/fluid/inference/analysis/node.h): the AnyAttr dynamically typed
attribute slot, the Node base class with its Value / Function /
FunctionBlock subclasses, and the owning NodeMap registry.

The embedding is a shallow one: C++ objects become Lean structures,
mutation becomes explicit state passing, and a fatal PADDLE_ENFORCE
failure becomes an Except.error result. Node pointers are represented by
registry indices (the registry assigns dense ids equal to positions).
The bodies of the NodeMap methods live in node.cc, which is not part of
the sources at hand; those operations are modelled from the
specification text and are marked as such in their doc comments.
-/

namespace PaddleNodeCore

/-- Scalar type tags, one per alternative of the source attribute union
over bool, 32-bit float, int32, int64, pointer and string. -/
inductive AttrTag
  | tBool
  | tFloat
  | tInt32
  | tInt64
  | tPointer
  | tString
deriving DecidableEq, Repr

/-- Tagged scalar payload held by an attribute slot. A 32-bit float is
carried by its bit pattern, a pointer by its address (0 is the null
pointer), integers by their value and strings verbatim. -/
inductive AttrData
  | vBool (b : Bool)
  | vFloat (bits : Nat)
  | vInt32 (i : Int)
  | vInt64 (i : Int)
  | vPointer (addr : Nat)
  | vString (s : String)
deriving DecidableEq, Repr

/-- Tag of a stored payload. -/
def AttrData.tagOf : AttrData → AttrTag
  | .vBool _ => .tBool
  | .vFloat _ => .tFloat
  | .vInt32 _ => .tInt32
  | .vInt64 _ => .tInt64
  | .vPointer _ => .tPointer
  | .vString _ => .tString

/-- Value-initialized payload, the C++ T() for each alternative: false,
zero float, zero integers, the null pointer and the empty string. -/
def AttrTag.defaultValue : AttrTag → AttrData
  | .tBool => .vBool false
  | .tFloat => .vFloat 0
  | .tInt32 => .vInt32 0
  | .tInt64 => .vInt64 0
  | .tPointer => .vPointer 0
  | .tString => .vString ""

/-- State of one AnyAttr slot. The field any_data_ is the stored variant
(a default-constructed boost variant holds its first alternative, bool
false); type_index_ is none while the slot still carries the initial
typeid(AnyAttr) marker and some t once the slot has been locked to t. -/
structure AnyAttr where
  any_data_ : AttrData := .vBool false
  type_index_ : Option AttrTag := none
deriving DecidableEq, Repr

/-- AnyAttr::As requested at type t: a first access locks the slot to t
and value-initializes the payload; a later access enforces that the
locked tag equals t (PADDLE_ENFORCE message "fetch error type") and
returns the stored payload. The result carries the value read and the
updated slot. -/
def AnyAttr.As (t : AttrTag) (a : AnyAttr) : Except String (AttrData × AnyAttr) :=
  match a.type_index_ with
  | none => .ok (t.defaultValue, { any_data_ := t.defaultValue, type_index_ := some t })
  | some u => if u = t then .ok (a.any_data_, a) else .error "fetch error type"

/-- Assignment through the mutable reference returned by AnyAttr::As:
the type logic of As runs first, then the referenced payload is
overwritten with v. -/
def AnyAttr.AsSet (t : AttrTag) (v : AttrData) (a : AnyAttr) : Except String AnyAttr :=
  match a.type_index_ with
  | none => .ok { any_data_ := v, type_index_ := some t }
  | some u => if u = t then .ok { a with any_data_ := v } else .error "fetch error type"

/-- Node variant tag, the source enum Type with values kNone = -1,
kFunction, kValue, kFunctionBlock. -/
inductive NodeType
  | kNone
  | kFunction
  | kValue
  | kFunctionBlock
deriving DecidableEq, Repr

/-- Dynamic C++ class of a node object. It is fixed at construction and
drives virtual dispatch of repr and dot_attrs, independently of the
mutable type_ field. -/
inductive DynClass
  | cNode
  | cValue
  | cFunction
  | cFunctionBlock
deriving DecidableEq, Repr

/-- Element kinds of a Value node (enum DataType of the source). -/
inductive ValueDataType
  | kInt32
  | kInt64
  | kFloat32
  | kFloat64
deriving DecidableEq, Repr

/-- Node state. It gathers the shared fields of the source base class
and the variant-specific fields of the three subclasses (an object of a
given dynamic class never touches the fields of the other subclasses).
Edge lists and the subgraph hold registry indices in place of the raw
pointers of the source; the opaque Device tag is an integer. The field
data_type_ has no initializer in the source, hence the Option. -/
structure Node where
  dyn : DynClass := .cNode
  id_ : Int := -1
  name_ : String := ""
  type_ : NodeType := .kNone
  deleted_ : Bool := false
  attrs_ : String → AnyAttr := fun _ => {}
  inlinks : List Nat := []
  outlinks : List Nat := []
  data_type_ : Option ValueDataType := none
  dims_ : List Int := []
  device_ : Nat := 0
  func_type_ : String := ""
  subgraph : List Nat := []

/-- Pointwise update of the attribute bag at one name. The source bag is
an unordered_map whose operator[] default-inserts; a total function with
default slots models that behaviour directly. -/
def updateBag (f : String → AnyAttr) (nm : String) (a : AnyAttr) : String → AnyAttr :=
  fun x => if x = nm then a else f x

def Node.id (n : Node) : Int := n.id_

def Node.name (n : Node) : String := n.name_

def Node.type (n : Node) : NodeType := n.type_

def Node.deleted (n : Node) : Bool := n.deleted_

def Node.SetName (s : String) (n : Node) : Node := { n with name_ := s }

def Node.SetType (t : NodeType) (n : Node) : Node := { n with type_ := t }

def Node.SetDeleted (n : Node) : Node := { n with deleted_ := true }

def Node.IsFunction (n : Node) : Bool := decide (n.type_ = NodeType.kFunction)

def Node.IsValue (n : Node) : Bool := decide (n.type_ = NodeType.kValue)

def Node.IsFunctionBlock (n : Node) : Bool := decide (n.type_ = NodeType.kFunctionBlock)

/-- Node::attr(name) followed by a typed As access: attrs_[name] first
default-inserts a fresh slot on an unseen name (built into the total
function bag), then AnyAttr::As runs on that slot and the slot is
written back. Returns the value read and the updated node. -/
def Node.attrAs (nm : String) (t : AttrTag) (n : Node) : Except String (AttrData × Node) :=
  match (n.attrs_ nm).As t with
  | .ok (v, slot) => .ok (v, { n with attrs_ := updateBag n.attrs_ nm slot })
  | .error e => .error e

/-- Node::attr(name) followed by a typed As access used as the target of
an assignment storing v. -/
def Node.attrAsSet (nm : String) (t : AttrTag) (v : AttrData) (n : Node) :
    Except String Node :=
  match (n.attrs_ nm).AsSet t v with
  | .ok slot => .ok { n with attrs_ := updateBag n.attrs_ nm slot }
  | .error e => .error e

/-- Node::SetPbDesc stores the raw pointer in the "pb_desc" attribute
slot through As over the pointer alternative. -/
def Node.SetPbDesc (p : Nat) (n : Node) : Except String Node :=
  n.attrAsSet "pb_desc" .tPointer (.vPointer p)

/-- Node::pb_desc reads the "pb_desc" slot through As over the pointer
alternative; the const method still mutates the mutable bag. -/
def Node.pb_desc (n : Node) : Except String (Nat × Node) :=
  match n.attrAs "pb_desc" .tPointer with
  | .ok (.vPointer p, n1) => .ok (p, n1)
  | .ok _ => .error "bad variant access"
  | .error e => .error e

/-- Node::SetPbMsg stores the string blob in the "pb_msg" slot. -/
def Node.SetPbMsg (s : String) (n : Node) : Except String Node :=
  n.attrAsSet "pb_msg" .tString (.vString s)

/-- Node::pb_msg reads the "pb_msg" slot through As over the string
alternative. -/
def Node.pb_msg (n : Node) : Except String (String × Node) :=
  match n.attrAs "pb_msg" .tString with
  | .ok (.vString s, n1) => .ok (s, n1)
  | .ok _ => .error "bad variant access"
  | .error e => .error e

/-- Virtual repr: FunctionBlock overrides it with the synthetic
block-<id> label; every other dynamic class uses the base body
name() + "(" + id + ")". -/
def Node.repr (n : Node) : String :=
  match n.dyn with
  | .cFunctionBlock => "block-" ++ toString n.id_
  | _ => n.name_ ++ "(" ++ toString n.id_ ++ ")"

/-- Modelled from the spec: the bodies of the Value override of
dot_attrs live in node.cc, which is not among the sources. The spec only
says a variant may contribute variant-specific pairs in addition to the
shared ones; the shared default pair is kept. -/
def Value_dot_attrs (_ : Node) : List (String × String) :=
  [("style", "filled")]

/-- Modelled from the spec: the body of the Function override of
dot_attrs is in node.cc, absent from the sources. The end-to-end
scenario of the spec shows its output holding the shared default pair
plus an operator-kind pair carrying the operator string. -/
def Function_dot_attrs (n : Node) : List (String × String) :=
  [("style", "filled"), ("operatorKind", n.func_type_)]

/-- Virtual dot_attrs: Value and Function override it (bodies in
node.cc); the base body returns the single default pair style=filled. -/
def Node.dot_attrs (n : Node) : List (String × String) :=
  match n.dyn with
  | .cValue => Value_dot_attrs n
  | .cFunction => Function_dot_attrs n
  | _ => [("style", "filled")]

/-- Dynamic classes whose virtual dot_attrs resolves to the base body. -/
def dotAttrsNotOverridden : DynClass → Bool
  | .cNode => true
  | .cFunctionBlock => true
  | _ => false

/-- Dynamic class allocated for each requested variant. -/
def NodeType.dynOf : NodeType → DynClass
  | .kFunction => .cFunction
  | .kValue => .cValue
  | .kFunctionBlock => .cFunctionBlock
  | .kNone => .cNode

/-- Registry state: the owning node sequence (identity is position) and
the best-effort name index. -/
structure NodeMap where
  nodes_ : List Node := []
  map_ : List (String × Nat) := []

def NodeMap.size (m : NodeMap) : Nat := m.nodes_.length

/-- Modelled from the spec: the body of NodeMap::Create is in node.cc,
absent from the sources. Per the spec, create allocates a node of the
requested variant (the subclass constructor sets the variant tag),
assigns the next dense identity, appends it to the owned sequence and
returns it. -/
def NodeMap.Create (t : NodeType) (m : NodeMap) : Node × NodeMap :=
  let n : Node := { dyn := t.dynOf, type_ := t, id_ := Int.ofNat m.nodes_.length }
  (n, { m with nodes_ := m.nodes_ ++ [n] })

/-- Modelled from the spec: the body of NodeMap::Get is in node.cc,
absent from the sources. Per the spec, lookup of an identity that was
never assigned fails with OutOfRange. -/
def NodeMap.Get (id : Nat) (m : NodeMap) : Except String Node :=
  match m.nodes_[id]? with
  | some n => .ok n
  | none => .error "OutOfRange"

/-- Modelled from the spec: same contract as Get, returning the mutable
node. -/
def NodeMap.GetMutable (id : Nat) (m : NodeMap) : Except String Node :=
  match m.nodes_[id]? with
  | some n => .ok n
  | none => .error "OutOfRange"

/-- Modelled from the spec: the body of NodeMap::Delete is in node.cc,
absent from the sources. Per the spec, remove marks the node tombstoned
through SetDeleted, touches nothing else and does not compact storage; an
unassigned identity is OutOfRange. -/
def NodeMap.Delete (id : Nat) (m : NodeMap) : Except String NodeMap :=
  if id < m.nodes_.length then
    .ok { m with nodes_ := m.nodes_.set id ((m.nodes_.getD id {}).SetDeleted) }
  else .error "OutOfRange"

/-- Unassigned identity sentinel: the int value -1 of an unregistered
id_ converted to the unsigned 64-bit lookup index type. -/
def unassignedSentinel : Nat := 2 ^ 64 - 1

/-- Registry built by a sequence of create calls on an empty registry. -/
def buildRegistry (ts : List NodeType) : NodeMap :=
  ts.foldl (fun m t => (NodeMap.Create t m).2) {}

/-- Public mutating operations of the Node interface. Pure accessors are
omitted; an operation whose enforce fails aborts the process, so a
failing operation leaves no further observation and is modelled as
leaving the node unchanged. -/
inductive NodeOp
  | opSetPbDesc (p : Nat)
  | opSetPbMsg (s : String)
  | opSetDeleted
  | opSetName (s : String)
  | opSetType (t : NodeType)
  | opAttrAs (nm : String) (t : AttrTag)
  | opAttrAsSet (nm : String) (t : AttrTag) (v : AttrData)
  | opPbDesc
  | opPbMsg
  | opAddInlink (i : Nat)
  | opAddOutlink (i : Nat)
deriving DecidableEq, Repr

/-- State effect of one public node operation. -/
def NodeOp.apply (op : NodeOp) (n : Node) : Node :=
  match op with
  | .opSetPbDesc p =>
    match n.SetPbDesc p with
    | .ok n1 => n1
    | .error _ => n
  | .opSetPbMsg s =>
    match n.SetPbMsg s with
    | .ok n1 => n1
    | .error _ => n
  | .opSetDeleted => n.SetDeleted
  | .opSetName s => n.SetName s
  | .opSetType t => n.SetType t
  | .opAttrAs nm t =>
    match n.attrAs nm t with
    | .ok (_, n1) => n1
    | .error _ => n
  | .opAttrAsSet nm t v =>
    match n.attrAsSet nm t v with
    | .ok n1 => n1
    | .error _ => n
  | .opPbDesc =>
    match n.pb_desc with
    | .ok (_, n1) => n1
    | .error _ => n
  | .opPbMsg =>
    match n.pb_msg with
    | .ok (_, n1) => n1
    | .error _ => n
  | .opAddInlink i => { n with inlinks := n.inlinks ++ [i] }
  | .opAddOutlink i => { n with outlinks := n.outlinks ++ [i] }

/-- Whether the operation is a call to the public SetType mutator. -/
def NodeOp.isSetType : NodeOp → Bool
  | .opSetType _ => true
  | _ => false

/-- Public operations at registry level: create a node, tombstone one,
or act on the node obtained through GetMutable. -/
inductive RegOp
  | regCreate (t : NodeType)
  | regDelete (id : Nat)
  | regNodeOp (id : Nat) (op : NodeOp)
deriving DecidableEq, Repr

/-- State effect of one registry-level operation; a failing lookup or
enforce aborts the run and is modelled as leaving the state unchanged. -/
def RegOp.apply (op : RegOp) (m : NodeMap) : NodeMap :=
  match op with
  | .regCreate t => (NodeMap.Create t m).2
  | .regDelete id =>
    match m.Delete id with
    | .ok m1 => m1
    | .error _ => m
  | .regNodeOp id nop =>
    if id < m.nodes_.length then
      { m with nodes_ := m.nodes_.set id (nop.apply (m.nodes_.getD id {})) }
    else m

/-- Whether the registry-level operation routes to the public SetType
mutator of some node. -/
def RegOp.isSetTypeOp : RegOp → Bool
  | .regNodeOp _ op => op.isSetType
  | _ => false

def applyRegOps (ops : List RegOp) (m : NodeMap) : NodeMap :=
  ops.foldl (fun acc op => op.apply acc) m

/-- Reading back the slot just written. -/
theorem updateBag_apply_self (f : String → AnyAttr) (nm : String) (a : AnyAttr) :
    updateBag f nm a nm = a := by
  simp [updateBag]

/-- Writing back the value already stored changes nothing. -/
theorem updateBag_self (f : String → AnyAttr) (nm : String) (a : AnyAttr) (h : f nm = a) :
    updateBag f nm a = f := by
  funext x
  unfold updateBag
  by_cases hx : x = nm
  · subst hx; simp [h]
  · simp [hx]

/-- A typed access on a fresh slot locks it and returns the default. -/
theorem attrAs_fresh (n : Node) (nm : String) (t : AttrTag)
    (h : (n.attrs_ nm).type_index_ = none) :
    n.attrAs nm t = Except.ok (t.defaultValue,
      { n with attrs_ :=
          updateBag n.attrs_ nm { any_data_ := t.defaultValue, type_index_ := some t } }) := by
  unfold Node.attrAs AnyAttr.As
  rw [h]

/-- A typed access on a slot locked at the same tag returns the stored
payload and leaves the node unchanged. -/
theorem attrAs_locked (n : Node) (nm : String) (t : AttrTag)
    (h : (n.attrs_ nm).type_index_ = some t) :
    n.attrAs nm t = Except.ok ((n.attrs_ nm).any_data_, n) := by
  unfold Node.attrAs AnyAttr.As
  rw [h]
  simp [updateBag_self n.attrs_ nm (n.attrs_ nm) rfl]

/-- A typed access on a slot locked at a different tag is the fatal
fetch-error enforce. -/
theorem attrAs_mismatch (n : Node) (nm : String) (t u : AttrTag)
    (h : (n.attrs_ nm).type_index_ = some t) (hne : t ≠ u) :
    n.attrAs nm u = Except.error "fetch error type" := by
  unfold Node.attrAs AnyAttr.As
  rw [h]
  simp [hne]

/-- A successful typed write stores exactly the written payload under the
requested tag, whether the slot was fresh or already locked at that tag. -/
theorem attrAsSet_ok (n : Node) (nm : String) (t : AttrTag) (v : AttrData) (n1 : Node)
    (h : n.attrAsSet nm t v = Except.ok n1) :
    n1 = { n with
            attrs_ := updateBag n.attrs_ nm { any_data_ := v, type_index_ := some t } } := by
  unfold Node.attrAsSet AnyAttr.AsSet at h
  cases hty : (n.attrs_ nm).type_index_ with
  | none =>
    rw [hty] at h
    simpa using h.symm
  | some u =>
    rw [hty] at h
    by_cases hu : u = t
    · subst hu
      simp at h
      simp [← h, hty]
    · simp [hu] at h

/-- A successful typed read leaves every field but the bag unchanged. -/
theorem attrAs_ok_shape (n : Node) (nm : String) (t : AttrTag) (v : AttrData) (n1 : Node)
    (h : n.attrAs nm t = Except.ok (v, n1)) :
    ∃ slot, n1 = { n with attrs_ := updateBag n.attrs_ nm slot } := by
  unfold Node.attrAs at h
  cases hAs : (n.attrs_ nm).As t with
  | ok p =>
    rw [hAs] at h
    refine ⟨p.2, ?_⟩
    cases p
    simp at h
    exact h.2.symm
  | error e =>
    rw [hAs] at h
    simp at h

/-- A successful pb_desc read leaves every field but the bag unchanged. -/
theorem pb_desc_ok_shape (n : Node) (p : Nat) (n1 : Node)
    (h : n.pb_desc = Except.ok (p, n1)) :
    ∃ slot, n1 = { n with attrs_ := updateBag n.attrs_ "pb_desc" slot } := by
  unfold Node.pb_desc at h
  split at h
  case _ p2 n2 heq =>
    cases h
    exact attrAs_ok_shape n "pb_desc" .tPointer _ _ heq
  case _ => cases h
  case _ => cases h

/-- A successful pb_msg read leaves every field but the bag unchanged. -/
theorem pb_msg_ok_shape (n : Node) (s : String) (n1 : Node)
    (h : n.pb_msg = Except.ok (s, n1)) :
    ∃ slot, n1 = { n with attrs_ := updateBag n.attrs_ "pb_msg" slot } := by
  unfold Node.pb_msg at h
  split at h
  case _ s2 n2 heq =>
    cases h
    exact attrAs_ok_shape n "pb_msg" .tString _ _ heq
  case _ => cases h
  case _ => cases h

/-- Reading a slot right after a successful typed write of the same type
returns exactly the written payload and leaves the node unchanged. -/
theorem attr_write_read (n1 : Node) (nm : String) (t : AttrTag) (v : AttrData) (n2 : Node)
    (h : n1.attrAsSet nm t v = Except.ok n2) :
    n2.attrAs nm t = Except.ok (v, n2) := by
  have h2 := attrAsSet_ok n1 nm t v n2 h
  subst h2
  have hsl : ({ n1 with
      attrs_ := updateBag n1.attrs_ nm { any_data_ := v, type_index_ := some t } } :
        Node).attrs_ nm = { any_data_ := v, type_index_ := some t } :=
    updateBag_apply_self _ _ _
  have hrd := attrAs_locked { n1 with
      attrs_ := updateBag n1.attrs_ nm { any_data_ := v, type_index_ := some t } }
    nm t (by rw [hsl])
  rw [hrd, hsl]

/-- C4: a FunctionBlock node with no explicit name renders through its
override as the synthetic label block-<id> derived from its numeric
identity; a node dispatching to the base body renders as the name
combined with the identity. -/
theorem c4_describe_labels (n : Node) :
    (n.dyn = DynClass.cFunctionBlock → n.name_ = "" →
      n.repr = "block-" ++ toString n.id_)
    ∧ (n.dyn ≠ DynClass.cFunctionBlock →
      n.repr = n.name_ ++ "(" ++ toString n.id_ ++ ")") := by
  constructor
  · intro hd _
    simp [Node.repr, hd]
  · intro hd
    unfold Node.repr
    cases hdyn : n.dyn <;> simp_all

/-- C4 witness: a concrete unnamed FunctionBlock with identity 7 and a
concrete base-class node named x with identity 2. -/
theorem c4_describe_labels_witness :
    Node.repr { dyn := DynClass.cFunctionBlock, id_ := 7 } = "block-7"
    ∧ Node.repr { dyn := DynClass.cNode, id_ := 2, name_ := "x" } = "x(2)" := by
  constructor
  · have h := (c4_describe_labels { dyn := DynClass.cFunctionBlock, id_ := 7 }).1 rfl rfl
    simpa using h
  · have h := (c4_describe_labels { dyn := DynClass.cNode, id_ := 2, name_ := "x" }).2
      (by simp)
    simpa using h

/-- C6: SetDeleted sets only the tombstone flag, it is idempotent, and
every other field of the node (identity, name, variant tag, dynamic
class, attribute bag, edge lists, variant-specific fields) is left
unchanged. -/
theorem c6_setdeleted_idempotent_frame (n : Node) :
    (n.SetDeleted).deleted_ = true
    ∧ (n.SetDeleted).SetDeleted = n.SetDeleted
    ∧ (n.SetDeleted).id_ = n.id_
    ∧ (n.SetDeleted).name_ = n.name_
    ∧ (n.SetDeleted).type_ = n.type_
    ∧ (n.SetDeleted).dyn = n.dyn
    ∧ (n.SetDeleted).attrs_ = n.attrs_
    ∧ (n.SetDeleted).inlinks = n.inlinks
    ∧ (n.SetDeleted).outlinks = n.outlinks
    ∧ (n.SetDeleted).data_type_ = n.data_type_
    ∧ (n.SetDeleted).dims_ = n.dims_
    ∧ (n.SetDeleted).device_ = n.device_
    ∧ (n.SetDeleted).func_type_ = n.func_type_
    ∧ (n.SetDeleted).subgraph = n.subgraph :=
  ⟨rfl, rfl, rfl, rfl, rfl, rfl, rfl, rfl, rfl, rfl, rfl, rfl, rfl, rfl⟩

/-- C7: on a fresh node the first typed access to any attribute name
succeeds and returns the value-initialized default of the requested
type; in particular the int64 default is zero. -/
theorem c7_attribute_default :
    (∀ (nm : String) (t : AttrTag),
      ∃ n1, Node.attrAs nm t {} = Except.ok (t.defaultValue, n1))
    ∧ AttrTag.defaultValue AttrTag.tInt64 = AttrData.vInt64 0 := by
  constructor
  · intro nm t
    exact ⟨_, attrAs_fresh {} nm t rfl⟩
  · rfl

/-- C8: for a node whose dynamic class does not override dot_attrs, the
rendered attribute list contains the default pair style=filled. -/
theorem c8_default_style_pair (n : Node) (h : dotAttrsNotOverridden n.dyn = true) :
    ("style", "filled") ∈ n.dot_attrs := by
  unfold Node.dot_attrs
  cases hd : n.dyn <;> simp_all [dotAttrsNotOverridden]

/-- C8 witness: the default pair on a concrete base-class node. -/
theorem c8_default_style_pair_witness :
    ("style", "filled") ∈ Node.dot_attrs {} :=
  c8_default_style_pair {} rfl

/-- C10: the three variant predicates are pairwise exclusive, and a node
whose variant tag is the unassigned kNone satisfies none of them. -/
theorem c10_variant_predicates_exclusive (n : Node) :
    ((n.IsFunction && n.IsValue) = false
      ∧ (n.IsFunction && n.IsFunctionBlock) = false
      ∧ (n.IsValue && n.IsFunctionBlock) = false)
    ∧ (n.type_ = NodeType.kNone →
        n.IsFunction = false ∧ n.IsValue = false ∧ n.IsFunctionBlock = false) := by
  cases ht : n.type_ <;>
    simp_all [Node.IsFunction, Node.IsValue, Node.IsFunctionBlock]

/-- C10 witness: a concrete node left at the unassigned kNone tag. -/
theorem c10_variant_predicates_exclusive_witness :
    Node.IsFunction {} = false ∧ Node.IsValue {} = false
      ∧ Node.IsFunctionBlock {} = false :=
  (c10_variant_predicates_exclusive {}).2 rfl

/-- C1: on a bag whose slot for a name is untouched, a first typed
access locks the slot to the requested type and returns its default; a
later access under a different type is the fatal fetch-error enforce; a
later access under the same type returns the stored payload, leaves the
node unchanged, and a value written through it is read back rather than
reset. -/
theorem c1_attribute_type_lock (n : Node) (nm : String) (t u : AttrTag)
    (hfresh : (n.attrs_ nm).type_index_ = none) (hne : u ≠ t) :
    ∃ n1, n.attrAs nm t = Except.ok (t.defaultValue, n1)
      ∧ (n1.attrs_ nm).type_index_ = some t
      ∧ n1.attrAs nm u = Except.error "fetch error type"
      ∧ n1.attrAs nm t = Except.ok ((n1.attrs_ nm).any_data_, n1)
      ∧ (∀ v n2, n1.attrAsSet nm t v = Except.ok n2 →
          n2.attrAs nm t = Except.ok (v, n2)) := by
  have hty : (({ n with
      attrs_ := updateBag n.attrs_ nm
        { any_data_ := t.defaultValue, type_index_ := some t } } :
          Node).attrs_ nm).type_index_ = some t := by
    have hsl : ({ n with
        attrs_ := updateBag n.attrs_ nm
          { any_data_ := t.defaultValue, type_index_ := some t } } :
            Node).attrs_ nm = { any_data_ := t.defaultValue, type_index_ := some t } :=
      updateBag_apply_self _ _ _
    rw [hsl]
  exact ⟨_, attrAs_fresh n nm t hfresh, hty,
    attrAs_mismatch _ nm t u hty (fun he => hne he.symm),
    attrAs_locked _ nm t hty,
    fun v n2 hset => attr_write_read _ nm t v n2 hset⟩

/-- C1 witness: the fresh name x on a default node, first locked at
bool, then accessed at int32. -/
theorem c1_attribute_type_lock_witness :
    ∃ n1, Node.attrAs "x" AttrTag.tBool {} =
        Except.ok (AttrTag.defaultValue AttrTag.tBool, n1)
      ∧ (n1.attrs_ "x").type_index_ = some AttrTag.tBool
      ∧ n1.attrAs "x" AttrTag.tInt32 = Except.error "fetch error type"
      ∧ n1.attrAs "x" AttrTag.tBool = Except.ok ((n1.attrs_ "x").any_data_, n1)
      ∧ (∀ v n2, n1.attrAsSet "x" AttrTag.tBool v = Except.ok n2 →
          n2.attrAs "x" AttrTag.tBool = Except.ok (v, n2)) :=
  c1_attribute_type_lock {} "x" AttrTag.tBool AttrTag.tInt32 rfl (by decide)

/-- C5: a successful SetPbMsg stores the string blob verbatim and pb_msg
returns exactly it; a successful SetPbDesc stores the raw handle and
pb_desc returns exactly it. -/
theorem c5_pb_roundtrip (n : Node) :
    (∀ s n1, n.SetPbMsg s = Except.ok n1 → n1.pb_msg = Except.ok (s, n1))
    ∧ (∀ p n1, n.SetPbDesc p = Except.ok n1 → n1.pb_desc = Except.ok (p, n1)) := by
  constructor
  · intro s n1 h
    have hr := attr_write_read n "pb_msg" .tString (.vString s) n1 h
    unfold Node.pb_msg
    rw [hr]
  · intro p n1 h
    have hr := attr_write_read n "pb_desc" .tPointer (.vPointer p) n1 h
    unfold Node.pb_desc
    rw [hr]

/-- C5 witness: storing the concrete blob hi and the concrete handle 7
on a default node and reading them back. -/
theorem c5_pb_roundtrip_witness :
    (∃ n1, Node.SetPbMsg "hi" {} = Except.ok n1
      ∧ n1.pb_msg = Except.ok ("hi", n1))
    ∧ (∃ n1, Node.SetPbDesc 7 {} = Except.ok n1
      ∧ n1.pb_desc = Except.ok (7, n1)) := by
  constructor
  · exact ⟨_, rfl, (c5_pb_roundtrip {}).1 "hi" _ rfl⟩
  · exact ⟨_, rfl, (c5_pb_roundtrip {}).2 7 _ rfl⟩

/-- C9: on a node whose pb_desc slot was never touched, pb_desc does not
fail: it returns the null pointer and as a side effect locks the slot to
the pointer type, so any later access under another type is the fatal
fetch-error enforce. -/
theorem c9_pb_desc_lazy_null (n : Node)
    (h : (n.attrs_ "pb_desc").type_index_ = none) :
    ∃ n1, n.pb_desc = Except.ok (0, n1)
      ∧ (n1.attrs_ "pb_desc").type_index_ = some AttrTag.tPointer
      ∧ (∀ u, u ≠ AttrTag.tPointer →
          n1.attrAs "pb_desc" u = Except.error "fetch error type") := by
  have hrd := attrAs_fresh n "pb_desc" .tPointer h
  have hty : (({ n with
      attrs_ := updateBag n.attrs_ "pb_desc"
        { any_data_ := AttrTag.defaultValue .tPointer, type_index_ := some .tPointer } } :
          Node).attrs_ "pb_desc").type_index_ = some AttrTag.tPointer := by
    simp [updateBag]
  refine ⟨_, ?_, hty, fun u hu => attrAs_mismatch _ "pb_desc" .tPointer u hty
    (fun he => hu he.symm)⟩
  unfold Node.pb_desc
  rw [hrd]
  rfl

/-- C9 witness: pb_desc on a default node. -/
theorem c9_pb_desc_lazy_null_witness :
    ∃ n1, Node.pb_desc {} = Except.ok (0, n1)
      ∧ (n1.attrs_ "pb_desc").type_index_ = some AttrTag.tPointer
      ∧ (∀ u, u ≠ AttrTag.tPointer →
          n1.attrAs "pb_desc" u = Except.error "fetch error type") :=
  c9_pb_desc_lazy_null {} rfl

/-- Creating nodes only grows the owned sequence, one slot per call. -/
theorem foldlCreate_length (ts : List NodeType) (m : NodeMap) :
    (ts.foldl (fun acc t => (NodeMap.Create t acc).2) m).nodes_.length
      = m.nodes_.length + ts.length := by
  induction ts generalizing m with
  | nil => simp
  | cons t ts ih =>
    simp only [List.foldl_cons]
    rw [ih]
    simp [NodeMap.Create]
    omega

theorem buildRegistry_length (ts : List NodeType) :
    (buildRegistry ts).nodes_.length = ts.length := by
  unfold buildRegistry
  rw [foldlCreate_length]
  simp

/-- Lookup of an assigned identity succeeds. -/
theorem Get_ok_of_lt (m : NodeMap) (i : Nat) (h : i < m.nodes_.length) :
    ∃ n, m.Get i = Except.ok n := by
  unfold NodeMap.Get
  rw [List.getElem?_eq_getElem h]
  exact ⟨_, rfl⟩

/-- Lookup of an identity never assigned is OutOfRange. -/
theorem Get_err_of_ge (m : NodeMap) (i : Nat) (h : m.nodes_.length ≤ i) :
    m.Get i = Except.error "OutOfRange" := by
  unfold NodeMap.Get
  rw [List.getElem?_eq_none h]

theorem GetMutable_ok_of_lt (m : NodeMap) (i : Nat) (h : i < m.nodes_.length) :
    ∃ n, m.GetMutable i = Except.ok n := by
  unfold NodeMap.GetMutable
  rw [List.getElem?_eq_getElem h]
  exact ⟨_, rfl⟩

theorem GetMutable_err_of_ge (m : NodeMap) (i : Nat) (h : m.nodes_.length ≤ i) :
    m.GetMutable i = Except.error "OutOfRange" := by
  unfold NodeMap.GetMutable
  rw [List.getElem?_eq_none h]

/-- C3: after exactly N creates, size returns N, both lookups succeed on
every identity below N, and both fail with OutOfRange on every identity
at or above N and on the unassigned sentinel (whose unsigned conversion
exceeds any realizable registry size). -/
theorem c3_identity_density (ts : List NodeType) :
    (buildRegistry ts).size = ts.length
    ∧ (∀ i, i < ts.length →
        (∃ n, (buildRegistry ts).Get i = Except.ok n)
        ∧ (∃ n, (buildRegistry ts).GetMutable i = Except.ok n))
    ∧ (∀ i, ts.length ≤ i →
        (buildRegistry ts).Get i = Except.error "OutOfRange"
        ∧ (buildRegistry ts).GetMutable i = Except.error "OutOfRange")
    ∧ (ts.length < 2 ^ 64 →
        (buildRegistry ts).Get unassignedSentinel = Except.error "OutOfRange"
        ∧ (buildRegistry ts).GetMutable unassignedSentinel
            = Except.error "OutOfRange") := by
  have hlen := buildRegistry_length ts
  refine ⟨?_, ?_, ?_, ?_⟩
  · unfold NodeMap.size
    exact hlen
  · intro i hi
    have hlt : i < (buildRegistry ts).nodes_.length := by rw [hlen]; exact hi
    exact ⟨Get_ok_of_lt _ i hlt, GetMutable_ok_of_lt _ i hlt⟩
  · intro i hi
    have hge : (buildRegistry ts).nodes_.length ≤ i := by rw [hlen]; exact hi
    exact ⟨Get_err_of_ge _ i hge, GetMutable_err_of_ge _ i hge⟩
  · intro hN
    have hge : (buildRegistry ts).nodes_.length ≤ unassignedSentinel := by
      rw [hlen]
      unfold unassignedSentinel
      omega
    exact ⟨Get_err_of_ge _ _ hge, GetMutable_err_of_ge _ _ hge⟩

/-- C3 witness: a registry holding exactly two created nodes. -/
theorem c3_identity_density_witness :
    (buildRegistry [NodeType.kFunction, NodeType.kValue]).size = 2
    ∧ (∃ n, (buildRegistry [NodeType.kFunction, NodeType.kValue]).Get 1
        = Except.ok n)
    ∧ (buildRegistry [NodeType.kFunction, NodeType.kValue]).Get 2
        = Except.error "OutOfRange"
    ∧ (buildRegistry [NodeType.kFunction, NodeType.kValue]).Get unassignedSentinel
        = Except.error "OutOfRange" := by
  have h := c3_identity_density [NodeType.kFunction, NodeType.kValue]
  exact ⟨h.1, (h.2.1 1 (by norm_num)).1, (h.2.2.1 2 (by norm_num)).1,
    (h.2.2.2 (by norm_num)).1⟩

theorem getD_append_lt (l l2 : List Node) (i : Nat) (h : i < l.length) :
    (l ++ l2).getD i {} = l.getD i {} := by
  rw [List.getD_eq_getElem?_getD, List.getD_eq_getElem?_getD,
    List.getElem?_append_left h]

theorem getD_set_self (l : List Node) (i : Nat) (a : Node) (h : i < l.length) :
    (l.set i a).getD i {} = a := by
  rw [List.getD_eq_getElem?_getD, List.getElem?_set_self h]
  rfl

theorem getD_set_ne (l : List Node) (i j : Nat) (a : Node) (h : i ≠ j) :
    (l.set i a).getD j {} = l.getD j {} := by
  rw [List.getD_eq_getElem?_getD, List.getD_eq_getElem?_getD,
    List.getElem?_set_ne h]

/-- A successful Delete tombstones exactly the addressed slot. -/
theorem delete_ok_nodes (m : NodeMap) (id : Nat) (m1 : NodeMap)
    (h : m.Delete id = Except.ok m1) :
    id < m.nodes_.length
    ∧ m1.nodes_ = m.nodes_.set id ((m.nodes_.getD id {}).SetDeleted) := by
  unfold NodeMap.Delete at h
  split at h
  · rename_i hlt
    injection h with h2
    subst h2
    exact ⟨hlt, rfl⟩
  · exact Except.noConfusion h

/-- Every public node operation leaves the identity unchanged, and
leaves the variant tag unchanged unless it is the SetType mutator. -/
theorem nodeOp_preserves_id_type (op : NodeOp) (n : Node) :
    (op.apply n).id_ = n.id_
    ∧ (op.isSetType = false → (op.apply n).type_ = n.type_) := by
  cases op with
  | opSetPbDesc p =>
    simp only [NodeOp.apply]
    split
    · rename_i n1 hr
      obtain rfl := attrAsSet_ok n "pb_desc" .tPointer (.vPointer p) n1 hr
      exact ⟨rfl, fun _ => rfl⟩
    · exact ⟨rfl, fun _ => rfl⟩
  | opSetPbMsg s =>
    simp only [NodeOp.apply]
    split
    · rename_i n1 hr
      obtain rfl := attrAsSet_ok n "pb_msg" .tString (.vString s) n1 hr
      exact ⟨rfl, fun _ => rfl⟩
    · exact ⟨rfl, fun _ => rfl⟩
  | opSetDeleted => exact ⟨rfl, fun _ => rfl⟩
  | opSetName s => exact ⟨rfl, fun _ => rfl⟩
  | opSetType t => exact ⟨rfl, fun hc => Bool.noConfusion hc⟩
  | opAttrAs nm t =>
    simp only [NodeOp.apply]
    split
    · rename_i v n1 hr
      obtain ⟨slot, rfl⟩ := attrAs_ok_shape n nm t v n1 hr
      exact ⟨rfl, fun _ => rfl⟩
    · exact ⟨rfl, fun _ => rfl⟩
  | opAttrAsSet nm t v =>
    simp only [NodeOp.apply]
    split
    · rename_i n1 hr
      obtain rfl := attrAsSet_ok n nm t v n1 hr
      exact ⟨rfl, fun _ => rfl⟩
    · exact ⟨rfl, fun _ => rfl⟩
  | opPbDesc =>
    simp only [NodeOp.apply]
    split
    · rename_i p n1 hr
      obtain ⟨slot, rfl⟩ := pb_desc_ok_shape n p n1 hr
      exact ⟨rfl, fun _ => rfl⟩
    · exact ⟨rfl, fun _ => rfl⟩
  | opPbMsg =>
    simp only [NodeOp.apply]
    split
    · rename_i s n1 hr
      obtain ⟨slot, rfl⟩ := pb_msg_ok_shape n s n1 hr
      exact ⟨rfl, fun _ => rfl⟩
    · exact ⟨rfl, fun _ => rfl⟩
  | opAddInlink i => exact ⟨rfl, fun _ => rfl⟩
  | opAddOutlink i => exact ⟨rfl, fun _ => rfl⟩

/-- No registry-level operation shrinks the owned sequence. -/
theorem regOp_len_mono (op : RegOp) (m : NodeMap) :
    m.nodes_.length ≤ (op.apply m).nodes_.length := by
  cases op with
  | regCreate t =>
    have hn : (RegOp.apply (RegOp.regCreate t) m).nodes_
        = m.nodes_ ++ [{ dyn := t.dynOf, type_ := t, id_ := Int.ofNat m.nodes_.length }] :=
      rfl
    rw [hn, List.length_append]
    omega
  | regDelete id =>
    simp only [RegOp.apply]
    split
    · rename_i m1 hr
      rw [(delete_ok_nodes m id m1 hr).2, List.length_set]
    · exact Nat.le_refl _
  | regNodeOp id nop =>
    simp only [RegOp.apply]
    split
    · dsimp only
      rw [List.length_set]
    · exact Nat.le_refl _

/-- One registry-level operation preserves the identity of every
existing node, and its variant tag unless the operation routes to the
public SetType mutator. -/
theorem regOp_apply_at (op : RegOp) (m : NodeMap) (i : Nat)
    (h : i < m.nodes_.length) :
    ((op.apply m).nodes_.getD i {}).id_ = (m.nodes_.getD i {}).id_
    ∧ (op.isSetTypeOp = false →
        ((op.apply m).nodes_.getD i {}).type_ = (m.nodes_.getD i {}).type_) := by
  cases op with
  | regCreate t =>
    have hn : (RegOp.apply (RegOp.regCreate t) m).nodes_
        = m.nodes_ ++ [{ dyn := t.dynOf, type_ := t, id_ := Int.ofNat m.nodes_.length }] :=
      rfl
    rw [hn, getD_append_lt m.nodes_ _ i h]
    exact ⟨rfl, fun _ => rfl⟩
  | regDelete id =>
    simp only [RegOp.apply]
    split
    · rename_i m1 hr
      obtain ⟨hlt, hn⟩ := delete_ok_nodes m id m1 hr
      rw [hn]
      by_cases hid : id = i
      · subst hid
        rw [getD_set_self _ _ _ hlt]
        exact ⟨rfl, fun _ => rfl⟩
      · rw [getD_set_ne _ _ _ _ hid]
        exact ⟨rfl, fun _ => rfl⟩
    · exact ⟨rfl, fun _ => rfl⟩
  | regNodeOp id nop =>
    simp only [RegOp.apply]
    split
    · rename_i hlt
      dsimp only
      by_cases hid : id = i
      · subst hid
        rw [getD_set_self _ _ _ hlt]
        exact nodeOp_preserves_id_type nop _
      · rw [getD_set_ne _ _ _ _ hid]
        exact ⟨rfl, fun _ => rfl⟩
    · exact ⟨rfl, fun _ => rfl⟩

/-- C2 amended: the identity of a node is write-once under every
sequence of public node and registry operations; the variant tag is
likewise preserved by every such sequence that does not invoke the
public SetType mutator, which is the one public operation able to
reassign it. -/
theorem c2_id_write_once_variant_until_settype (m : NodeMap) (ops : List RegOp)
    (i : Nat) (h : i < m.nodes_.length) :
    ((applyRegOps ops m).nodes_.getD i {}).id_ = (m.nodes_.getD i {}).id_
    ∧ ((∀ op ∈ ops, op.isSetTypeOp = false) →
        ((applyRegOps ops m).nodes_.getD i {}).type_
          = (m.nodes_.getD i {}).type_) := by
  induction ops generalizing m with
  | nil => exact ⟨rfl, fun _ => rfl⟩
  | cons op ops ih =>
    have hstep := regOp_apply_at op m i h
    have hlen : i < (op.apply m).nodes_.length :=
      Nat.lt_of_lt_of_le h (regOp_len_mono op m)
    have hrest := ih (op.apply m) hlen
    have happ : applyRegOps (op :: ops) m = applyRegOps ops (op.apply m) := rfl
    constructor
    · rw [happ]
      exact hrest.1.trans hstep.1
    · intro hall
      rw [happ]
      exact (hrest.2 fun o ho => hall o (List.mem_cons_of_mem op ho)).trans
        (hstep.2 (hall op (List.mem_cons_self op ops)))

/-- C2 witness for the amended statement: one created Function node, a
tombstoning operation, identity and variant tag unmoved. -/
theorem c2_id_write_once_variant_until_settype_witness :
    (((applyRegOps [RegOp.regDelete 0]
        (buildRegistry [NodeType.kFunction])).nodes_.getD 0 {}).id_
      = ((buildRegistry [NodeType.kFunction]).nodes_.getD 0 {}).id_)
    ∧ (((applyRegOps [RegOp.regDelete 0]
        (buildRegistry [NodeType.kFunction])).nodes_.getD 0 {}).type_
      = ((buildRegistry [NodeType.kFunction]).nodes_.getD 0 {}).type_) := by
  have h := c2_id_write_once_variant_until_settype
    (buildRegistry [NodeType.kFunction]) [RegOp.regDelete 0] 0 (by decide)
  exact ⟨h.1, h.2 (by decide)⟩

/-- C2 counterexample: the claim as stated is false, because SetType is
a public operation and reassigns the variant tag. A node created with
the Function variant observes the Value variant after the public
operation sequence consisting of one SetType call. -/
theorem c2_counterexample_settype_mutates_variant :
    ((buildRegistry [NodeType.kFunction]).nodes_.getD 0 {}).type_
        = NodeType.kFunction
    ∧ ((applyRegOps [RegOp.regNodeOp 0 (NodeOp.opSetType NodeType.kValue)]
        (buildRegistry [NodeType.kFunction])).nodes_.getD 0 {}).type_
        = NodeType.kValue :=
  ⟨rfl, rfl⟩

end PaddleNodeCore
